import Mathlib

/-!
Verification development for the Soteria Network Discord stats bot
(`bot.py`).  The bot periodically fetches blockchain statistics (RPC
difficulty / hashrate / block count), a coin-supply endpoint and
CoinGecko market data, formats them, and reconciles one voice channel
per statistic inside a "Soteria Server Stats" category.

The embedding below models:
  * JSON-ish Python values (`PyVal`) with Python truthiness,
  * Python fixed-point number formatting (round-half-even, optional
    thousands grouping) as used by the f-strings in `bot.py`,
  * the per-field display formatting of `update_stats_channels`,
  * the RPC helper `make_rpc_call`,
  * the channel reconciler (`get_or_create_channel` / `update_channel` /
    `set_channel_private`) over an explicit channel-list state, and
  * the per-cycle driver `update_stats_channels` as a pure state
    transformer `runCycle`.

Channel and category names are modelled as `List Char`; numeric values
as `ℚ`.
-/

namespace SoteriaBot

/-- The space character (U+0020), the only character removed by
`str.replace(" ", "")`. -/
def spaceChar : Char := Char.ofNat 32

/-- A (simplified) Python/JSON value as it can appear in an RPC
`result` field: a number (Python `int`/`float`) or a string. -/
inductive PyVal where
  | num (q : ℚ)
  | str (s : List Char)
deriving DecidableEq

/-- Python truthiness for `PyVal`: a number is truthy iff nonzero, a
string iff non-empty. -/
def pyTruthy : PyVal → Bool
  | .num q => decide (q ≠ 0)
  | .str s => !s.isEmpty

/-- The sentinel string "N/A". -/
def naStr : List Char := "N/A".data

/-- Python `x or "N/A"` applied to an optional RPC result, as in
`bot.py` lines 94 and 101: a missing (`None`) or falsy result is
replaced by the sentinel, any truthy result passes through unchanged. -/
def orNA (r : Option PyVal) : PyVal :=
  match r with
  | some v => if pyTruthy v then v else .str naStr
  | none => .str naStr

/-- Stringification of a `PyVal` as the f-strings in `bot.py` do when
interpolating a value into a channel name.  The rendering of numbers
(`str(float)` / `str(int)`) is taken as a parameter `render`; no claim
depends on its exact behaviour. -/
def pyStr (render : ℚ → List Char) : PyVal → List Char
  | .num q => render q
  | .str s => s

/-! ### Python fixed-point formatting -/

/-- Round the fraction `n / d` (with `d > 0`) scaled by `10 ^ p` to an
integer, using round-half-even (Python / IEEE default rounding as used
by `format(x, ".2f")`).  The result depends only on the value `n / d`,
not on the chosen representation. -/
def roundHalfEvenScaled (n d : ℤ) (p : ℕ) : ℤ :=
  let a : ℤ := n * (10 : ℤ) ^ p
  let f : ℤ := Int.ediv a d
  let r : ℤ := Int.emod a d
  if 2 * r < d then f
  else if d < 2 * r then f + 1
  else if Int.emod f 2 = 0 then f else f + 1

/-- Insert a `','` after every third character of a reversed digit
string (helper for thousands grouping). -/
def group3Aux : List Char → List Char
  | a :: b :: c :: d :: rest => a :: b :: c :: ',' :: group3Aux (d :: rest)
  | l => l

/-- Thousands grouping of a digit string, as Python's `","` format
option does for the integer part. -/
def group3 (l : List Char) : List Char := (group3Aux l.reverse).reverse

/-- Python `format(q, ",.<prec>f")` (when `grouped` is `true`) or
`format(q, ".<prec>f")` (when `grouped` is `false`) on an exact
rational value: round-half-even at `prec` decimal places, render the
magnitude's digits, pad so that an integer part exists, optionally
thousands-group the integer part, and prefix `'-'` for negative
values. -/
def fmtQ (q : ℚ) (prec : ℕ) (grouped : Bool) : List Char :=
  let m : ℤ := roundHalfEvenScaled (q.num.natAbs : ℤ) (q.den : ℤ) prec
  let ds0 : List Char := Nat.toDigits 10 m.toNat
  let ds : List Char := List.replicate (prec + 1 - ds0.length) '0' ++ ds0
  let ip : List Char := ds.take (ds.length - prec)
  let fp : List Char := ds.drop (ds.length - prec)
  (if q.num < 0 then ['-'] else []) ++ (if grouped then group3 ip else ip) ++
    (if prec = 0 then [] else '.' :: fp)

/-- Python `format(n, ",")` for a natural number: thousands-grouped
decimal digits. -/
def fmtNatComma (n : ℕ) : List Char := group3 (Nat.toDigits 10 n)

/-- Division of a rational by `1e9` (`1_000_000_000`), computed
directly on the numerator/denominator representation.  Equal to
`q / 1000000000` (proved in `divBillion_eq` below). -/
def divBillion (q : ℚ) : ℚ := mkRat q.num (q.den * 1000000000)

/-! ### The per-field display formatters of `update_stats_channels` -/

/-- Hashrate display (`bot.py` lines 97-98): if the RPC result is a
number, divide by `1e9` and format with `",.3f"`, otherwise the
sentinel. -/
def hashrate_display (r : Option PyVal) : List Char :=
  match r with
  | some (.num q) => fmtQ (divBillion q) 3 true
  | _ => naStr

/-- Supply display (`bot.py` lines 104-109): on a successfully fetched
and parsed `coinsupply` value, divide by `1_000_000_000` and format
with `",.2f"` plus the unit suffix; any exception in the block yields
the sentinel. -/
def supply_display (r : Option ℚ) : List Char :=
  match r with
  | some q => fmtQ (divBillion q) 2 true ++ "B SOTER".data
  | none => naStr

/-- The four optional numeric fields extracted from the CoinGecko
response (`market_data.{current_price,total_volume,market_cap}.usd`
and `market_data.price_change_percentage_24h`); `none` models a
missing field. -/
structure MarketData where
  current_price : Option ℚ
  total_volume : Option ℚ
  market_cap : Option ℚ
  price_change_percentage_24h : Option ℚ

/-- `price_core` (`bot.py` line 121): `f"$\x7bp:.6f\x7d"` when the price is
numeric, otherwise the sentinel. -/
def price_core_of (p : Option ℚ) : List Char :=
  match p with
  | some q => '$' :: fmtQ q 6 false
  | none => naStr

/-- `price_display` (`bot.py` lines 121-126): append the 24h-change
arrow suffix when the change is numeric (up-triangle with explicit `+`
for change `>= 0`, down-triangle otherwise), else show the core
alone. -/
def price_display (p c : Option ℚ) : List Char :=
  match c with
  | some ch =>
      price_core_of p ++ " (".data ++
        (if 0 ≤ ch then "▲ +".data ++ fmtQ ch 2 false ++ "%".data
         else "▼ ".data ++ fmtQ ch 2 false ++ "%".data) ++ " 24h)".data
  | none => price_core_of p

/-- Price display from the whole market-data fetch result; `none`
models an exception in the CoinGecko block (line 134). -/
def price_display_of (m : Option MarketData) : List Char :=
  match m with
  | some md => price_display md.current_price md.price_change_percentage_24h
  | none => naStr

/-- 24h volume display (`bot.py` line 128): `",.0f"` when numeric,
else sentinel; sentinel on a CoinGecko exception. -/
def volume_display_of (m : Option MarketData) : List Char :=
  match m with
  | some md =>
      match md.total_volume with
      | some v => fmtQ v 0 true
      | none => naStr
  | none => naStr

/-- Market cap display (`bot.py` line 129): `",.0f"` when numeric,
else sentinel; sentinel on a CoinGecko exception. -/
def market_cap_display_of (m : Option MarketData) : List Char :=
  match m with
  | some md =>
      match md.market_cap with
      | some v => fmtQ v 0 true
      | none => naStr
  | none => naStr

/-- Members display (`bot.py` lines 136 and 149):
`member_count = guild.member_count or "N/A"` followed by the f-string
`f"\x7bmember_count:,\x7d"`.  When the member count is missing (`None`) or
`0`, `member_count` is the string `"N/A"`, and formatting a `str` with
the `","` option raises `ValueError` — modelled as `Except.error ()`.
Otherwise the thousands-grouped integer is produced. -/
def member_count_display (m : Option ℕ) : Except Unit (List Char) :=
  match m with
  | some n => if n = 0 then .error () else .ok (fmtNatComma n)
  | none => .error ()

/-! ### The RPC helper `make_rpc_call` -/

/-- The body of an RPC HTTP response once read: either not a JSON
object with a `get` method (`malformed`, including invalid JSON — the
resulting exception is caught), or an envelope whose `result` field is
present (`some v`) or missing/null (`none`). -/
inductive RpcBody where
  | malformed
  | envelope (result : Option PyVal)
deriving DecidableEq

/-- The outcome of the HTTP POST performed by `make_rpc_call`: a
transport error (exception from `session.post`), or a response with a
status code and a body. -/
inductive RpcOutcome where
  | transportError
  | response (status : ℕ) (body : RpcBody)
deriving DecidableEq

/-- `make_rpc_call` (`bot.py` lines 48-61): return `None` on any
transport error, any non-200 status, or a malformed envelope; on a
well-formed 200 response return `data.get("result")`. -/
def make_rpc_call (o : RpcOutcome) : Option PyVal :=
  match o with
  | .transportError => none
  | .response status body =>
      if status ≠ 200 then none
      else
        match body with
        | .malformed => none
        | .envelope r => r

/-! ### The fetch inputs and the formatter stage of one cycle -/

/-- The external inputs of one `update_stats_channels` cycle for one
guild: the three RPC results (as returned by `make_rpc_call`), the
supply fetch (`none` models any exception in the supply block), the
CoinGecko fetch (`none` models any exception in that block), and the
guild's member count (`none` models a missing `guild.member_count`). -/
structure FetchInputs where
  difficulty_rpc : Option PyVal
  hashrate_rpc : Option PyVal
  block_rpc : Option PyVal
  supply_fetch : Option ℚ
  market_fetch : Option MarketData
  member_count : Option ℕ

/-- The formatted display values of one cycle.  `members` is an
`Except` because the members f-string can raise (see
`member_count_display`); the difficulty and block values are kept as
`PyVal` exactly as the Python locals are. -/
structure Displays where
  members : Except Unit (List Char)
  difficulty : PyVal
  hashrate : List Char
  block : PyVal
  supply : List Char
  price : List Char
  volume : List Char
  mcap : List Char

/-- The pure formatter stage of `update_stats_channels` (`bot.py`
lines 94-136 and the members f-string of line 149). -/
def computeDisplays (i : FetchInputs) : Displays :=
  { members := member_count_display i.member_count
  , difficulty := orNA i.difficulty_rpc
  , hashrate := hashrate_display i.hashrate_rpc
  , block := orNA i.block_rpc
  , supply := supply_display i.supply_fetch
  , price := price_display_of i.market_fetch
  , volume := volume_display_of i.market_fetch
  , mcap := market_cap_display_of i.market_fetch }

/-! ### Channel normalization and the reconciler -/

/-- Python `str.isspace()` truthiness for the ASCII whitespace
characters stripped by `str.strip()`. -/
def isPySpace (c : Char) : Bool :=
  c == spaceChar || c == '\t' || c == '\n' || c == '\r' || c == '\x0b' || c == '\x0c'

/-- Python `s.strip()`: drop leading and trailing whitespace. -/
def pyStrip (l : List Char) : List Char :=
  ((l.dropWhile isPySpace).reverse.dropWhile isPySpace).reverse

/-- `s.lower().replace(" ", "")`: lower-case every character, then
remove all space characters. -/
def lowerNoSpace (s : List Char) : List Char :=
  (s.map Char.toLower).filter (fun c => !(c == spaceChar))

/-- `norm` (`bot.py` lines 64-65): `s.lower().replace(" ", "").strip()`. -/
def norm (s : List Char) : List Char := pyStrip (lowerNoSpace s)

/-- A voice or non-voice channel of a guild: its name, whether it is a
`discord.VoiceChannel`, the id of the category it belongs to (if any),
and whether `connect` has been denied to the default role. -/
structure Chan where
  cname : List Char
  isVoice : Bool
  category : Option ℕ
  connectDenied : Bool
deriving DecidableEq

/-- Whether `get_or_create_channel` (`bot.py` lines 67-73) selects
this channel when looking for `target` inside category `c`: the
channel must be one of the category's voice channels and its
normalized name must start with the normalized target. -/
def chMatch (c : ℕ) (target : List Char) (ch : Chan) : Bool :=
  ch.category == some c && ch.isVoice && (norm target).isPrefixOf (norm ch.cname)

/-- One reconciliation step for one key (`update_channel`, `bot.py`
lines 82-87): find the first matching voice channel of the category
and rename it to `"<target> <value>"`; if none matches, create a new
voice channel (named `target`, then immediately renamed by
`channel.edit` to `"<target> <value>"`), appended to the guild's
channel list. -/
def reconcile (c : ℕ) (target value : List Char) : List Chan → List Chan
  | [] => [⟨target ++ spaceChar :: value, true, some c, false⟩]
  | ch :: rest =>
      if chMatch c target ch then
        { ch with cname := target ++ spaceChar :: value } :: rest
      else ch :: reconcile c target value rest

/-- The number of channels of the list that `get_or_create_channel`
would accept for key `target` in category `c`. -/
def countMatch (c : ℕ) (target : List Char) (chans : List Chan) : ℕ :=
  chans.countP (chMatch c target)

/-- `set_channel_private` (`bot.py` lines 75-80): deny `connect` to
the default role, but only for a `discord.VoiceChannel` whose category
is the given one; any other channel is left untouched. -/
def set_channel_private (c : ℕ) (ch : Chan) : Chan :=
  if ch.isVoice && ch.category == some c then { ch with connectDenied := true } else ch

/-- The lock phase (`bot.py` lines 166-167): apply
`set_channel_private` to every voice channel currently in the
category; all other channels of the guild are untouched. -/
def lockChannels (c : ℕ) (chans : List Chan) : List Chan :=
  chans.map (fun ch =>
    if ch.category == some c && ch.isVoice then set_channel_private c ch else ch)

/-! ### Channel keys and the per-cycle driver -/

/-- The eight logical channel keys of `CHANNEL_KEYS` (`bot.py` lines
36-45). -/
inductive ChannelKey where
  | members | difficulty_soterg | hashrate_soterg | block
  | supply | price | volume_24h | market_cap
deriving DecidableEq

/-- The label prefix of each key (`CHANNEL_KEYS`, `bot.py` lines
36-45). -/
def CHANNEL_KEYS : ChannelKey → List Char
  | .members => "Members:".data
  | .difficulty_soterg => "Difficulty (SoterG):".data
  | .hashrate_soterg => "Hashrate (SoterG): GH/s".data
  | .block => "Block:".data
  | .supply => "Supply:".data
  | .price => "Price:".data
  | .volume_24h => "24h Volume: $".data
  | .market_cap => "Market Cap: $".data

/-- The fixed category name (`bot.py` line 139). -/
def soteriaCategoryName : List Char := "Soteria Server Stats".data

/-- Category resolution (`bot.py` lines 140-144):
`discord.utils.get(guild.categories, name=category_name)` finds the
first category with exactly that name; if none exists, one is created
(appended).  Returns the updated category list together with the index
of the resolved category, used as its identity. -/
def resolveCategory (cats : List (List Char)) : List (List Char) × ℕ :=
  if soteriaCategoryName ∈ cats then
    (cats, cats.findIdx (fun n => n == soteriaCategoryName))
  else (cats ++ [soteriaCategoryName], cats.length)

/-- One full `update_stats_channels` cycle (`bot.py` lines 90-170) as
a pure transformer of the guild's category list and channel list,
given the fetch results of the cycle.  `render` stringifies numeric
`PyVal`s when interpolated into a channel name.  The category is
resolved (and created if absent) once, before any channel lookup; then
the eight keys are reconciled in source order; finally every voice
channel of the category is made private.  If the members f-string
raises (`member_count_display` returns an error), the cycle-level
`except` catches it: the category resolution has already happened, but
no channel is updated or locked. -/
def runCycle (render : ℚ → List Char) (i : FetchInputs)
    (cats : List (List Char)) (chans : List Chan) : List (List Char) × List Chan :=
  let rc := resolveCategory cats
  let c := rc.2
  let d := computeDisplays i
  match d.members with
  | .error _ => (rc.1, chans)
  | .ok mstr =>
      let l1 := reconcile c (CHANNEL_KEYS .members) mstr chans
      let l2 := reconcile c (CHANNEL_KEYS .difficulty_soterg) (pyStr render d.difficulty) l1
      let l3 := reconcile c (CHANNEL_KEYS .hashrate_soterg) d.hashrate l2
      let l4 := reconcile c (CHANNEL_KEYS .block) (pyStr render d.block) l3
      let l5 := reconcile c (CHANNEL_KEYS .supply) d.supply l4
      let l6 := reconcile c (CHANNEL_KEYS .price) d.price l5
      let l7 := reconcile c (CHANNEL_KEYS .volume_24h) d.volume l6
      let l8 := reconcile c (CHANNEL_KEYS .market_cap) d.mcap l7
      (rc.1, lockChannels c l8)

/-! ## Helper lemmas -/

theorem dropWhile_eq_self_of_pyStrip {l : List Char} (h : pyStrip l = l) :
    l.dropWhile isPySpace = l := by
  have hs : l.dropWhile isPySpace <:+ l := List.dropWhile_suffix _
  have h2 : l.length ≤ (l.dropWhile isPySpace).length := by
    conv_lhs => rw [← h]
    calc (pyStrip l).length
        = ((l.dropWhile isPySpace).reverse.dropWhile isPySpace).length := by
          simp [pyStrip]
      _ ≤ (l.dropWhile isPySpace).reverse.length :=
          (List.dropWhile_suffix _).length_le
      _ = (l.dropWhile isPySpace).length := by simp
  exact hs.eq_of_length (Nat.le_antisymm hs.length_le h2)

theorem rdropWhile_eq_self_of_pyStrip {l : List Char} (h : pyStrip l = l) :
    l.reverse.dropWhile isPySpace = l.reverse := by
  have h1 := dropWhile_eq_self_of_pyStrip h
  have h2 : ((l.reverse.dropWhile isPySpace).reverse : List Char) = l := by
    conv_rhs => rw [← h]
    rw [pyStrip, h1]
  have h3 := congrArg List.reverse h2
  simpa using h3

theorem head_not_space_of_pyStrip {a : Char} {l : List Char}
    (h : pyStrip (a :: l) = a :: l) : isPySpace a = false := by
  have h1 := dropWhile_eq_self_of_pyStrip h
  by_contra hc
  have ha : isPySpace a = true := by revert hc; cases isPySpace a <;> simp
  rw [List.dropWhile_cons_of_pos ha] at h1
  have h2 := congrArg List.length h1
  have h3 := (List.dropWhile_suffix (l := l) isPySpace).length_le
  simp at h2
  omega

theorem lowerNoSpace_append_space (t v : List Char) :
    lowerNoSpace (t ++ spaceChar :: v) = lowerNoSpace t ++ lowerNoSpace v := by
  simp [lowerNoSpace, List.filter_append, List.filter_cons,
    show (Char.toLower spaceChar == spaceChar) = true from by decide]

theorem norm_prefix_space_append (t v : List Char)
    (hk : pyStrip (lowerNoSpace t) = lowerNoSpace t) :
    norm t <+: norm (t ++ spaceChar :: v) := by
  have hnt : norm t = lowerNoSpace t := by rw [norm, hk]
  rw [hnt, norm, lowerNoSpace_append_space]
  rcases hXc : lowerNoSpace t with _ | ⟨a, X'⟩
  · simp
  · rw [hXc] at hk
    have ha : isPySpace a = false := head_not_space_of_pyStrip hk
    have h1 : ((a :: X' ++ lowerNoSpace v).dropWhile isPySpace : List Char) =
        a :: X' ++ lowerNoSpace v := by
      rw [List.cons_append, List.dropWhile_cons_of_neg (by simp [ha])]
    rw [pyStrip, h1, List.reverse_append, List.dropWhile_append]
    by_cases hE : ((lowerNoSpace v).reverse.dropWhile isPySpace).isEmpty = true
    · rw [if_pos hE, rdropWhile_eq_self_of_pyStrip hk]
      simp
    · rw [if_neg hE, List.reverse_append]
      simp

theorem chMatch_of_label (c : ℕ) (t v : List Char)
    (hk : pyStrip (lowerNoSpace t) = lowerNoSpace t)
    (ch : Chan) (hcat : ch.category = some c) (hv : ch.isVoice = true)
    (hname : ch.cname = t ++ spaceChar :: v) :
    chMatch c t ch = true := by
  rw [chMatch, hcat, hv, hname]
  simp [List.isPrefixOf_iff_prefix, norm_prefix_space_append t v hk]

theorem chMatch_fields {c : ℕ} {t : List Char} {ch : Chan}
    (h : chMatch c t ch = true) :
    ch.category = some c ∧ ch.isVoice = true := by
  rw [chMatch] at h
  simp only [Bool.and_eq_true, beq_iff_eq] at h
  exact ⟨h.1.1, h.1.2⟩

theorem chMatch_rename (c : ℕ) (t v : List Char)
    (hk : pyStrip (lowerNoSpace t) = lowerNoSpace t)
    (ch : Chan) (h : chMatch c t ch = true) :
    chMatch c t { ch with cname := t ++ spaceChar :: v } = true :=
  chMatch_of_label c t v hk _ (chMatch_fields h).1 (chMatch_fields h).2 rfl

theorem chMatch_created (c : ℕ) (t v : List Char)
    (hk : pyStrip (lowerNoSpace t) = lowerNoSpace t) (d : Bool) :
    chMatch c t ⟨t ++ spaceChar :: v, true, some c, d⟩ = true :=
  chMatch_of_label c t v hk _ rfl rfl rfl

theorem reconcile_reconcile (c : ℕ) (t v : List Char)
    (hk : pyStrip (lowerNoSpace t) = lowerNoSpace t) :
    ∀ chans, reconcile c t v (reconcile c t v chans) = reconcile c t v chans := by
  intro chans
  induction chans with
  | nil => simp [reconcile, chMatch_created c t v hk false]
  | cons ch rest ih =>
    by_cases h : chMatch c t ch = true
    · simp only [reconcile, h, if_true, chMatch_rename c t v hk ch h]
    · simp only [reconcile, h, if_false, Bool.false_eq_true, ite_false, ih]

theorem countMatch_reconcile (c : ℕ) (t v : List Char)
    (hk : pyStrip (lowerNoSpace t) = lowerNoSpace t) :
    ∀ chans, countMatch c t (reconcile c t v chans) =
      if countMatch c t chans = 0 then 1 else countMatch c t chans := by
  intro chans
  induction chans with
  | nil => simp [countMatch, reconcile, chMatch_created c t v hk false]
  | cons ch rest ih =>
    by_cases h : chMatch c t ch = true
    · simp only [reconcile, h, if_true, countMatch, List.countP_cons,
        chMatch_rename c t v hk ch h]
      simp
    · simp only [reconcile, h, if_false, Bool.false_eq_true, ite_false]
      simp only [countMatch, List.countP_cons, h] at ih ⊢
      simp only [Bool.false_eq_true, if_false, Nat.add_zero] at ih ⊢
      exact ih

theorem reconcile_mem_label (c : ℕ) (t v : List Char) :
    ∀ chans, ∃ ch ∈ reconcile c t v chans, ch.cname = t ++ spaceChar :: v := by
  intro chans
  induction chans with
  | nil => exact ⟨_, List.mem_singleton_self _, rfl⟩
  | cons ch rest ih =>
    by_cases h : chMatch c t ch = true
    · simp only [reconcile, h, if_true]
      exact ⟨_, List.mem_cons_self _ _, rfl⟩
    · simp only [reconcile, h, if_false, Bool.false_eq_true, ite_false]
      obtain ⟨ch', hm, hl⟩ := ih
      exact ⟨ch', List.mem_cons_of_mem _ hm, hl⟩

theorem divBillion_eq (q : ℚ) : divBillion q = q / 1000000000 := by
  rw [divBillion, Rat.mkRat_eq_divInt, Rat.divInt_eq_div]
  push_cast
  rw [← div_div, Rat.num_div_den]

/-! ## Claim theorems -/

/-- C1 (amended): for the hashrate fetch, a missing or non-numeric RPC
result formats to the sentinel "N/A"; for the difficulty and
block-count fetches, a missing result formats to the sentinel, and a
falsy result is replaced by the sentinel, but a truthy non-numeric
result (such as a non-empty string) is passed through unchanged rather
than being replaced by the sentinel. -/
theorem rpc_na_formatting (v : PyVal) (s : List Char) (q : ℚ) :
    orNA none = .str naStr ∧
    (pyTruthy v = false → orNA (some v) = .str naStr) ∧
    (pyTruthy v = true → orNA (some v) = v) ∧
    hashrate_display none = naStr ∧
    hashrate_display (some (.str s)) = naStr ∧
    hashrate_display (some (.num q)) = fmtQ (divBillion q) 3 true := by
  refine ⟨rfl, ?_, ?_, rfl, rfl, rfl⟩
  · intro h; simp [orNA, h]
  · intro h; simp [orNA, h]

theorem rpc_na_formatting_witness :
    orNA (some (.str "pending".data)) = .str "pending".data ∧
    orNA (some (.num 0)) = .str naStr :=
  ⟨(rpc_na_formatting (.str "pending".data) [] 0).2.2.1 (by decide),
   (rpc_na_formatting (.num 0) [] 0).2.1 (by decide)⟩

/-- C1 counterexample: a non-numeric (non-empty) string result for the
difficulty or block-count RPC does NOT format to "N/A" — `x or "N/A"`
keeps any truthy value, so the string passes through unchanged. -/
theorem rpc_na_claim_counterexample :
    orNA (some (.str "pending".data)) = .str "pending".data ∧
    orNA (some (.str "pending".data)) ≠ .str naStr := by
  constructor
  · rfl
  · decide

/-- C2 (code bug): when `guild.member_count` is missing (`None`, and
likewise for a falsy `0`), `member_count` becomes the string "N/A" and
the f-string `"\x7bmember_count:,\x7d"` raises `ValueError` (the `","`
format option is invalid for strings).  The exception is caught by the
cycle-level handler, so NO channel of the cycle is updated — the
remaining seven fields are not reconciled, contrary to the claim that
a bad members value never blocks the other updates. -/
theorem members_failure_aborts_cycle :
    member_count_display none = .error () ∧
    member_count_display (some 0) = .error () ∧
    ∀ (render : ℚ → List Char) (i : FetchInputs) (cats : List (List Char))
      (chans : List Chan),
      (runCycle render { i with member_count := none } cats chans).2 = chans := by
  refine ⟨rfl, rfl, ?_⟩
  intro render i cats chans
  simp [runCycle, computeDisplays, member_count_display]

/-- C3: reconciliation is idempotent.  For any key label `t` whose
normalized form has no leading/trailing whitespace (true of all eight
`CHANNEL_KEYS` labels) and any starting channel list with at most one
matching resource for the key, running reconcile leaves the list a
fixed point of a second run, exactly one resource of the category
matches the key (renamed resources still match because the new label
`"<t> <v>"` normalizes to an extension of `norm t`), and the final
label is `"<t> <v>"`. -/
theorem reconcile_idempotent_one_per_key (c : ℕ) (t v : List Char)
    (chans : List Chan)
    (hk : pyStrip (lowerNoSpace t) = lowerNoSpace t)
    (hcount : countMatch c t chans ≤ 1) :
    reconcile c t v (reconcile c t v chans) = reconcile c t v chans ∧
    countMatch c t (reconcile c t v chans) = 1 ∧
    ∃ ch ∈ reconcile c t v chans, ch.cname = t ++ spaceChar :: v := by
  refine ⟨reconcile_reconcile c t v hk chans, ?_, reconcile_mem_label c t v chans⟩
  rw [countMatch_reconcile c t v hk chans]
  split <;> omega

theorem reconcile_idempotent_one_per_key_witness :
    reconcile 0 "Members:".data "1,234".data
        (reconcile 0 "Members:".data "1,234".data []) =
      reconcile 0 "Members:".data "1,234".data [] ∧
    countMatch 0 "Members:".data (reconcile 0 "Members:".data "1,234".data []) = 1 ∧
    ∃ ch ∈ reconcile 0 "Members:".data "1,234".data [],
      ch.cname = "Members:".data ++ spaceChar :: "1,234".data :=
  reconcile_idempotent_one_per_key 0 "Members:".data "1,234".data []
    (by decide) (by decide)

/-- C4: for numeric price `p` and numeric 24h change `c`, the display
is `"$" ++ p` to 6 decimals, followed by `" (▲ +" ++ c` to 2 decimals
and `"% 24h)"` when `c ≥ 0`, or `" (▼ " ++ c` to 2 decimals and
`"% 24h)"` when `c < 0`; when the change is missing the price is shown
alone; in particular price `0.000123` with change `-1.5` gives
`"$0.000123 (▼ -1.50% 24h)"` and with change `2.0` gives
`"$0.000123 (▲ +2.00% 24h)"`. -/
theorem price_format_spec :
    (∀ (p c : ℚ) (tv mc : Option ℚ), 0 ≤ c →
      price_display_of (some ⟨some p, tv, mc, some c⟩) =
        "$".data ++ fmtQ p 6 false ++ " (▲ +".data ++ fmtQ c 2 false ++
          "% 24h)".data) ∧
    (∀ (p c : ℚ) (tv mc : Option ℚ), c < 0 →
      price_display_of (some ⟨some p, tv, mc, some c⟩) =
        "$".data ++ fmtQ p 6 false ++ " (▼ ".data ++ fmtQ c 2 false ++
          "% 24h)".data) ∧
    (∀ (p : ℚ) (tv mc : Option ℚ),
      price_display_of (some ⟨some p, tv, mc, none⟩) =
        "$".data ++ fmtQ p 6 false) ∧
    price_display_of (some ⟨some (mkRat 123 1000000), none, none,
        some (mkRat (-3) 2)⟩) = "$0.000123 (▼ -1.50% 24h)".data ∧
    price_display_of (some ⟨some (mkRat 123 1000000), none, none, some 2⟩) =
      "$0.000123 (▲ +2.00% 24h)".data := by
  refine ⟨?_, ?_, ?_, by decide, by decide⟩
  · intro p c tv mc h
    simp only [price_display_of, price_display, price_core_of, if_pos h]
    simp [List.append_assoc]
  · intro p c tv mc h
    simp only [price_display_of, price_display, price_core_of,
      if_neg (not_le.mpr h)]
    simp [List.append_assoc]
  · intro p tv mc
    simp only [price_display_of, price_display, price_core_of]
    simp

theorem price_format_spec_witness :
    price_display_of (some ⟨some (mkRat 123 1000000), none, none, some 2⟩) =
      "$".data ++ fmtQ (mkRat 123 1000000) 6 false ++ " (▲ +".data ++
        fmtQ 2 2 false ++ "% 24h)".data ∧
    price_display_of (some ⟨some (mkRat 123 1000000), none, none,
        some (mkRat (-3) 2)⟩) =
      "$".data ++ fmtQ (mkRat 123 1000000) 6 false ++ " (▼ ".data ++
        fmtQ (mkRat (-3) 2) 2 false ++ "% 24h)".data :=
  ⟨price_format_spec.1 (mkRat 123 1000000) 2 none none (by decide),
   price_format_spec.2.1 (mkRat 123 1000000) (mkRat (-3) 2) none none (by decide)⟩

/-- C5: a numeric raw supply `s` is displayed as `s / 1e9` rendered
with thousands separators and exactly 2 decimal places followed by
"B SOTER"; raw supply 2,500,000,000,000 formats to "2,500.00B SOTER";
any exception in the supply block yields the sentinel. -/
theorem supply_format_spec :
    (∀ q : ℚ, supply_display (some q) =
      fmtQ (q / 1000000000) 2 true ++ "B SOTER".data) ∧
    supply_display (some 2500000000000) = "2,500.00B SOTER".data ∧
    supply_display none = naStr := by
  refine ⟨?_, by decide, rfl⟩
  intro q
  simp [supply_display, divBillion_eq]

/-- C6: `make_rpc_call` is total (it is a Lean function) and returns
`some v` exactly when the HTTP POST succeeded with status 200 and a
well-formed envelope whose `result` field is present with value `v`;
every other outcome — transport error, non-200 status, malformed
envelope, missing `result` — yields the missing-value sentinel
`none`, never an exception. -/
theorem make_rpc_call_total_spec (o : RpcOutcome) (v : PyVal) :
    make_rpc_call o = some v ↔ o = .response 200 (.envelope (some v)) := by
  cases o with
  | transportError => simp [make_rpc_call]
  | response status body =>
    by_cases h : status = 200
    · cases body with
      | malformed => simp [make_rpc_call, h]
      | envelope r => simp [make_rpc_call, h]
    · cases body with
      | malformed => simp [make_rpc_call, h]
      | envelope r => simp [make_rpc_call, h]

/-- C7: noninterference — the formatted market-data fields (price, 24h
volume, market cap) of a cycle are identical whether the supply fetch
succeeded or failed; a supply failure never alters market-data
output. -/
theorem supply_noninterference (i : FetchInputs) (s₁ s₂ : Option ℚ) :
    (computeDisplays { i with supply_fetch := s₁ }).price =
      (computeDisplays { i with supply_fetch := s₂ }).price ∧
    (computeDisplays { i with supply_fetch := s₁ }).volume =
      (computeDisplays { i with supply_fetch := s₂ }).volume ∧
    (computeDisplays { i with supply_fetch := s₁ }).mcap =
      (computeDisplays { i with supply_fetch := s₂ }).mcap :=
  ⟨rfl, rfl, rfl⟩

/-- C8: the lock phase applies the connect-permission restriction to
every voice channel currently in the category — whichever cycle
created it — and leaves every channel outside the category, and every
non-voice channel, completely unchanged. -/
theorem lock_category_voice_only (c : ℕ) (chans : List Chan) (i : ℕ)
    (ch : Chan) (h : chans[i]? = some ch) :
    ((ch.category = some c ∧ ch.isVoice = true) →
      (lockChannels c chans)[i]? = some { ch with connectDenied := true }) ∧
    ((ch.category = some c ∧ ch.isVoice = true → False) →
      (lockChannels c chans)[i]? = some ch) := by
  have hbase : (lockChannels c chans)[i]? =
      some (if ch.category == some c && ch.isVoice then
        set_channel_private c ch else ch) := by
    simp [lockChannels, List.getElem?_map, h]
  constructor
  · rintro ⟨h1, h2⟩
    rw [hbase, if_pos (by simp [h1, h2]), set_channel_private,
      if_pos (by simp [h1, h2])]
  · intro hn
    have hcond : ¬((ch.category == some c && ch.isVoice) = true) := by
      intro hc
      simp only [Bool.and_eq_true, beq_iff_eq] at hc
      exact hn ⟨hc.1, hc.2⟩
    rw [hbase, if_neg hcond]

theorem lock_category_voice_only_witness :
    (lockChannels 7 [⟨"Members: 12".data, true, some 7, false⟩,
        ⟨"general".data, false, some 7, false⟩,
        ⟨"other".data, true, some 3, false⟩])[0]? =
      some ⟨"Members: 12".data, true, some 7, true⟩ ∧
    (lockChannels 7 [⟨"Members: 12".data, true, some 7, false⟩,
        ⟨"general".data, false, some 7, false⟩,
        ⟨"other".data, true, some 3, false⟩])[1]? =
      some ⟨"general".data, false, some 7, false⟩ ∧
    (lockChannels 7 [⟨"Members: 12".data, true, some 7, false⟩,
        ⟨"general".data, false, some 7, false⟩,
        ⟨"other".data, true, some 3, false⟩])[2]? =
      some ⟨"other".data, true, some 3, false⟩ :=
  ⟨(lock_category_voice_only 7 _ 0 _ rfl).1 (by decide),
   (lock_category_voice_only 7 _ 1 _ rfl).2 (by decide),
   (lock_category_voice_only 7 _ 2 _ rfl).2 (by decide)⟩

/-- C9: within one cycle the category list after the cycle is exactly
the one produced by the single up-front resolution step — the eight
per-key reconciliations never touch categories — the resolved list
contains the fixed category name, and resolution either leaves the
list unchanged (when a category of that exact name already exists) or
appends exactly one new category (when none exists). -/
theorem category_resolved_once (render : ℚ → List Char) (i : FetchInputs)
    (cats : List (List Char)) (chans : List Chan) :
    (runCycle render i cats chans).1 = (resolveCategory cats).1 ∧
    soteriaCategoryName ∈ (resolveCategory cats).1 ∧
    ((soteriaCategoryName ∈ cats ∧ (resolveCategory cats).1 = cats) ∨
     (soteriaCategoryName ∉ cats ∧
       (resolveCategory cats).1 = cats ++ [soteriaCategoryName])) := by
  refine ⟨?_, ?_, ?_⟩
  · rw [runCycle]
    cases hm : (computeDisplays i).members <;> simp [hm]
  · by_cases h : soteriaCategoryName ∈ cats <;> simp [resolveCategory, h]
  · by_cases h : soteriaCategoryName ∈ cats <;> simp [resolveCategory, h]

/-- C10: a falsy numeric RPC result — the valid number `0` — for
difficulty or block count is replaced by the sentinel "N/A" rather
than being displayed as a number, because `x or "N/A"` replaces every
falsy value. -/
theorem falsy_numeric_rpc_sentinel :
    orNA (some (.num 0)) = .str naStr ∧
    orNA (some (.num 0)) ≠ .num 0 := by
  constructor
  · rfl
  · decide

end SoteriaBot
